import Mathlib

set_option autoImplicit false

/-!
Shallow embedding of the image-to-video generator component
(`src/unnamed/part_000`: the `useFFmpeg` hook and the `VideoGenerator`
component) together with the page shell (`src/app/page.tsx`).

The component drives an external WebAssembly transcoder (ffmpeg.wasm).
We model the calls the component makes into that dependency, and into the
browser object-URL API, as an explicit event trace; the component's React
state is modelled as an explicit record.  React state updates are applied
eagerly; the cleanup functions of the two `useEffect` hooks that revoke a
replaced object URL are folded into the user-level action that replaces
the state they depend on (React runs those cleanups right after the
re-render caused by that action, before any further action can run).
Fields `live` and `next` are observation instrumentation: `live` is the
set of object URLs created and not yet revoked, `next` a fresh-URL
counter standing for `URL.createObjectURL` returning a fresh URL.
`videoBlob` records which blob the current video URL denotes; it is
cleared together with the URL.
-/

/-- UI state values of the `GenerationState` union type. -/
inductive Status where
  | idle
  | loading
  | processing
  | error (message : String)
deriving DecidableEq, Repr

/-- Message set by the error branch of `useFFmpeg.load`. -/
def loadErrMsg : String := "Failed to load FFmpeg. Please refresh and try again."

/-- Message set by `generateVideo` when no image is selected. -/
def chooseErrMsg : String := "Please choose an image before generating."

/-- Message set by `handleImageSelection` for a non-image file. -/
def unsupportedErrMsg : String := "Unsupported file. Please select an image."

/-- Message set by the catch branch of `generateVideo`. -/
def genErrMsg : String := "Something went wrong while generating the video. Please try again."

/-- `Math.max(duration - 0.5, 0)` from the `-vf` argument of the exec call,
over exact rationals. -/
def fadeOutStart (d : ℚ) : ℚ := max (d - 1/2) 0

/-- JavaScript decimal rendering of `fadeOutStart d` for the integer
durations the UI produces (slider, integer steps 2..12): the value is
either `0`, printed "0", or `d - 0.5`, printed "(d-1).5". -/
def fadeOutStartString (d : ℕ) : String :=
  if fadeOutStart (d : ℚ) = 0 then "0" else toString (d - 1) ++ ".5"

/-- The `-vf` filter string built by `generateVideo`
(template literal at lines 184-187 of the source). -/
def vfFilter (duration fps : ℕ) : String :=
  "fps=" ++ toString fps ++ ",fade=t=in:st=0:d=0.5,fade=t=out:st=" ++
    fadeOutStartString duration ++ ":d=0.5,format=yuv420p"

/-- The argument array passed to `ffmpegInstance.exec` (source lines
174-193).  `duration` and `fps` are naturals because the UI only produces
integer values (range slider 2..12, fps select 24/30/60); `toString` on a
natural agrees with JavaScript number stringification for integers. -/
def execArgs (duration fps : ℕ) (inputName outputName : String) : List String :=
  ["-loop", "1",
   "-i", inputName,
   "-c:v", "libx264",
   "-t", toString duration,
   "-vf", vfFilter duration fps,
   "-pix_fmt", "yuv420p",
   "-movflags", "+faststart",
   outputName]

/-- Observable calls the component makes into the transcoder module, the
object-URL API, and the error-reporting state setters. -/
inductive Event where
  | ffLoad
  | writeFile (name : String)
  | exec (args : List String)
  | readFile (name : String)
  | deleteFile (name : String)
  | createURL (url : ℕ)
  | revokeURL (url : ℕ)
  | setErr (message : String)
deriving DecidableEq, Repr

/-- Result of `ffmpegInstance.readFile`: `FileData = Uint8Array | string`. -/
inductive FileData where
  | bytes (data : List ℕ)
  | str (text : String)
deriving DecidableEq, Repr

/-- `new TextEncoder().encode(text)`: the UTF-8 bytes of the string. -/
def utf8Bytes (text : String) : List ℕ :=
  (String.toUTF8 text).data.toList.map (fun b => b.toNat)

/-- `binaryData` from `generateVideo` (source lines 199-202): the read-back
data as a byte array, encoding it when the read returned a string. -/
def binaryData : FileData → List ℕ
  | .bytes data => data
  | .str text => utf8Bytes text

/-- A browser `Blob`: its bytes and MIME type. -/
structure BlobV where
  data : List ℕ
  mime : String
deriving DecidableEq, Repr

/-- `new Blob([binaryData], { type: "video/mp4" })` (source line 203). -/
def generatedBlob (fd : FileData) : BlobV :=
  { data := binaryData fd, mime := "video/mp4" }

/-- The component's React state, plus instrumentation (`live`, `next`,
`videoBlob`) as described in the module docstring.  A selected image file
is represented by its MIME type, the only attribute the component's
control flow inspects. -/
structure CState where
  imageFile : Option String
  imagePreview : Option ℕ
  videoUrl : Option ℕ
  videoBlob : Option BlobV
  duration : ℕ
  fps : ℕ
  status : Status
  ffStatus : Status
  loaded : Bool
  live : List ℕ
  next : ℕ
deriving DecidableEq, Repr

/-- Initial state: `useState` initialisers of the component and the hook. -/
def initState : CState :=
  { imageFile := none, imagePreview := none, videoUrl := none, videoBlob := none,
    duration := 5, fps := 30, status := .idle, ffStatus := .idle,
    loaded := false, live := [], next := 0 }

/-- `useFFmpeg.load` (source lines 21-49).  `libOk` says whether the
library call `ffmpegInstance.load({...})` would succeed.  When the module
is already loaded the function returns the cached instance without calling
the library; otherwise it sets the hook state to loading, performs the one
library call, and either marks the module loaded or records the failure
message and rethrows (modelled by returning `none`). -/
def loadFn (libOk : Bool) (s : CState) : Option Unit × CState × List Event :=
  if s.loaded then
    (some (), s, [])
  else if libOk then
    (some (), { s with ffStatus := .idle, loaded := true }, [.ffLoad])
  else
    (none, { s with ffStatus := .error loadErrMsg }, [.ffLoad, .setErr loadErrMsg])

/-- The mount effect (source lines 67-76): it invokes `load()` as soon as
the component mounts, swallowing a thrown error. -/
def mountEffect (libOk : Bool) (s : CState) : CState × List Event :=
  (loadFn libOk s).2

/-- `resetVideo` (source lines 141-146): revoke the current video URL, if
any, then clear it. -/
def resetVideoFn (s : CState) : CState × List Event :=
  match s.videoUrl with
  | some v =>
      ({ s with videoUrl := none, videoBlob := none,
                live := s.live.filter (fun u => u != v) }, [.revokeURL v])
  | none => (s, [])

/-- JavaScript `s.startsWith(pre)`: `pre` is a prefix of `s`, as a check
on the character sequences. -/
def strStartsWith (s pre : String) : Bool := pre.data.isPrefixOf s.data

/-- `handleImageSelection` (source lines 99-122).  `none` models the
`null` argument; for `some ty`, `ty` is the file's MIME type.  The effect
cleanup that revokes the replaced preview URL is folded in: on the `null`
branch it is the only revocation, on the accept branch it re-revokes the
URL the handler already revoked explicitly (a no-op). -/
def handleImageSelection (file : Option String) (s : CState) : CState × List Event :=
  match file with
  | none =>
      match s.imagePreview with
      | some p =>
          ({ s with imageFile := none, imagePreview := none,
                    live := s.live.filter (fun u => u != p) }, [.revokeURL p])
      | none => ({ s with imageFile := none, imagePreview := none }, [])
  | some ty =>
      if ! strStartsWith ty "image/" then
        ({ s with status := .error unsupportedErrMsg }, [.setErr unsupportedErrMsg])
      else
        match s.imagePreview with
        | some p =>
            ({ s with imageFile := some ty, imagePreview := some s.next,
                      next := s.next + 1,
                      live := (s.live.filter (fun u => u != p)) ++ [s.next],
                      status := .idle },
             [.revokeURL p, .createURL s.next])
        | none =>
            ({ s with imageFile := some ty, imagePreview := some s.next,
                      next := s.next + 1,
                      live := s.live ++ [s.next],
                      status := .idle },
             [.createURL s.next])

/-- Which step of `generateVideo`, if any, throws.  `loadFails` only
matters when the library call actually runs (module not yet loaded). -/
inductive GenOutcome where
  | ok
  | loadFails
  | writeFails
  | execFails
  | readFails
  | deleteInFails
  | deleteOutFails
deriving DecidableEq, Repr

/-- Input file name built from `Date.now()` (source line 166). -/
def inputNameOf (t : ℕ) : String := "input" ++ toString t ++ ".png"

/-- Output file name built from `Date.now()` (source line 167). -/
def outputNameOf (t : ℕ) : String := "output" ++ toString t ++ ".mp4"

/-- `generateVideo` (source lines 148-215).  `t` models `Date.now()`,
`fd` the data `readFile` returns, `o` which awaited step throws.  Without
a selected image it records the error message and returns at once.
Otherwise: set processing, reset the old video, load (a load failure sets
the hook's message and rethrows, caught below), write the input file, run
the exec call, read the output, delete both files, wrap the bytes in an
mp4 blob and install its fresh object URL.  Any throw lands in the catch
branch, which sets the single generation error message. -/
def generateVideo (o : GenOutcome) (t : ℕ) (fd : FileData) (s : CState) :
    CState × List Event :=
  match s.imageFile with
  | none => ({ s with status := .error chooseErrMsg }, [.setErr chooseErrMsg])
  | some _ =>
      let r2 := resetVideoFn { s with status := .processing }
      match loadFn (decide (o ≠ .loadFails)) r2.1 with
      | (none, s3, ev3) =>
          ({ s3 with status := .error genErrMsg }, r2.2 ++ ev3 ++ [.setErr genErrMsg])
      | (some _, s3, ev3) =>
          let inN := inputNameOf t
          let outN := outputNameOf t
          let args := execArgs s3.duration s3.fps inN outN
          let pre := r2.2 ++ ev3
          if o = .writeFails then
            ({ s3 with status := .error genErrMsg },
             pre ++ [.writeFile inN, .setErr genErrMsg])
          else if o = .execFails then
            ({ s3 with status := .error genErrMsg },
             pre ++ [.writeFile inN, .exec args, .setErr genErrMsg])
          else if o = .readFails then
            ({ s3 with status := .error genErrMsg },
             pre ++ [.writeFile inN, .exec args, .readFile outN, .setErr genErrMsg])
          else if o = .deleteInFails then
            ({ s3 with status := .error genErrMsg },
             pre ++ [.writeFile inN, .exec args, .readFile outN,
                     .deleteFile inN, .setErr genErrMsg])
          else if o = .deleteOutFails then
            ({ s3 with status := .error genErrMsg },
             pre ++ [.writeFile inN, .exec args, .readFile outN,
                     .deleteFile inN, .deleteFile outN, .setErr genErrMsg])
          else
            ({ s3 with videoUrl := some s3.next,
                       videoBlob := some (generatedBlob fd),
                       next := s3.next + 1,
                       live := s3.live ++ [s3.next],
                       status := .idle },
             pre ++ [.writeFile inN, .exec args, .readFile outN,
                     .deleteFile inN, .deleteFile outN, .createURL s3.next])

/-- What the JSX renders from the state (source lines 324-354): the video
element's `src`, the download link's `href` and `download` name, and the
fallback image preview. -/
structure View where
  videoSrc : Option ℕ
  downloadHref : Option ℕ
  downloadName : Option String
  imgSrc : Option ℕ
deriving DecidableEq, Repr

/-- The render function of the preview pane. -/
def render (s : CState) : View :=
  match s.videoUrl with
  | some u =>
      { videoSrc := some u, downloadHref := some u,
        downloadName := some "image-video.mp4", imgSrc := none }
  | none =>
      match s.imagePreview with
      | some p =>
          { videoSrc := none, downloadHref := none,
            downloadName := none, imgSrc := some p }
      | none =>
          { videoSrc := none, downloadHref := none,
            downloadName := none, imgSrc := none }

/-- User-level actions on the component (file select via input or drop,
clearing the selection, the generate button, the clear-video button, and
the mount effect). -/
inductive UAction where
  | select (ty : String)
  | deselect
  | generate (o : GenOutcome) (t : ℕ) (fd : FileData)
  | clearVideo
  | mount (libOk : Bool)

/-- One action applied to the state (the clear-video button runs
`resetVideo()` and then sets the state to idle, source lines 355-364). -/
def step (s : CState) (a : UAction) : CState :=
  match a with
  | .select ty => (handleImageSelection (some ty) s).1
  | .deselect => (handleImageSelection none s).1
  | .generate o t fd => (generateVideo o t fd s).1
  | .clearVideo => { (resetVideoFn s).1 with status := .idle }
  | .mount libOk => (loadFn libOk s).2.1

/-- The state after a sequence of actions from the initial state. -/
def run (acts : List UAction) : CState := acts.foldl step initState

/-- Event classifiers used to state trace properties. -/
def isSetErr : Event → Bool
  | .setErr _ => true
  | _ => false

def isFfLoad : Event → Bool
  | .ffLoad => true
  | _ => false

def isWriteEv : Event → Bool
  | .writeFile _ => true
  | _ => false

def isExecEv : Event → Bool
  | .exec _ => true
  | _ => false

def isReadEv : Event → Bool
  | .readFile _ => true
  | _ => false

def isCreateEv : Event → Bool
  | .createURL _ => true
  | _ => false

/-- Marshalling events: file in, transcoder invocation, file out, and the
exposure of the result as an object URL. -/
def isMarshal (e : Event) : Bool :=
  isWriteEv e || isExecEv e || isReadEv e || isCreateEv e

/-- Well-formedness of the instrumented state: the live object URLs are
exactly the current preview URL and the current video URL, both slots hold
URLs below the freshness counter, and the two slots never share a URL. -/
def goodState (s : CState) : Prop :=
  (∀ u, u ∈ s.live ↔ (s.imagePreview = some u ∨ s.videoUrl = some u)) ∧
  (∀ u, s.imagePreview = some u → u < s.next) ∧
  (∀ u, s.videoUrl = some u → u < s.next) ∧
  (∀ u, s.imagePreview = some u → s.videoUrl ≠ some u)

/-! ## Theorems -/

/-- C10: the fade-out start time passed to the filter pipeline is
`max(duration - 0.5, 0)`: it is non-negative for every duration, and for
every duration at least 0.5 it equals `duration - 0.5`, so the 0.5-second
fade-out ends exactly at the end of the clip. -/
theorem fadeOutStart_nonneg_and_end_aligned :
    (∀ d : ℚ, 0 ≤ fadeOutStart d) ∧
    (∀ d : ℚ, 1/2 ≤ d → fadeOutStart d = d - 1/2) := by
  constructor
  · intro d
    exact le_max_right _ _
  · intro d hd
    unfold fadeOutStart
    rw [max_eq_left]
    linarith

/-- Witness for C10 at duration 5. -/
theorem fadeOutStart_nonneg_and_end_aligned_witness :
    fadeOutStart 5 = 5 - 1/2 :=
  fadeOutStart_nonneg_and_end_aligned.2 5 (by norm_num)

/-- C1: the argument list of the exec call is the fixed filter pipeline:
the input is looped (`-loop 1`), the filter string applies a 0.5s fade-in
at time 0 and a 0.5s fade-out ending at the clip's end, the output is
encoded with libx264 in yuv420p; entries other than the input name, the
`-t` value, the filter string (a function of duration and fps only) and
the output name are identical across all requests, and every exec event
of a generation run carries exactly these arguments. -/
theorem exec_call_uses_fixed_pipeline :
    (∀ d f i o, execArgs d f i o =
      ["-loop", "1", "-i", i, "-c:v", "libx264", "-t", toString d, "-vf",
       "fps=" ++ toString f ++ ",fade=t=in:st=0:d=0.5,fade=t=out:st=" ++
         fadeOutStartString d ++ ":d=0.5,format=yuv420p",
       "-pix_fmt", "yuv420p", "-movflags", "+faststart", o]) ∧
    (∀ d f i o d2 f2 i2 o2 k, k ≠ 3 → k ≠ 7 → k ≠ 9 → k ≠ 14 →
      (execArgs d f i o).get? k = (execArgs d2 f2 i2 o2).get? k) ∧
    (∀ s t fd ty o2, s.imageFile = some ty →
      ∀ e ∈ (generateVideo o2 t fd s).2, isExecEv e = true →
        e = .exec (execArgs s.duration s.fps (inputNameOf t) (outputNameOf t))) := by
  refine ⟨fun d f i o => rfl, ?_, ?_⟩
  · intro d f i o d2 f2 i2 o2 k h3 h7 h9 h14
    rcases k with _|_|_|_|_|_|_|_|_|_|_|_|_|_|_|k
    · rfl
    · rfl
    · rfl
    · exact absurd rfl h3
    · rfl
    · rfl
    · rfl
    · exact absurd rfl h7
    · rfl
    · exact absurd rfl h9
    · rfl
    · rfl
    · rfl
    · rfl
    · exact absurd rfl h14
    · rfl
  · intro s t fd ty o2 h e he hex
    cases e
    case exec args =>
      cases hv : s.videoUrl <;> cases hl : s.loaded <;> cases o2 <;>
        simp_all [generateVideo, resetVideoFn, loadFn]
    all_goals simp [isExecEv] at hex

/-- Witness for C1: the constant entries agree across two concrete
requests, here at index 0. -/
theorem exec_call_uses_fixed_pipeline_witness :
    (execArgs 5 30 "input1.png" "output1.mp4").get? 0 =
      (execArgs 12 24 "input2.png" "output2.mp4").get? 0 :=
  exec_call_uses_fixed_pipeline.2.1 5 30 "input1.png" "output1.mp4"
    12 24 "input2.png" "output2.mp4" 0
    (by decide) (by decide) (by decide) (by decide)

/-- A state whose transcoder module is already loaded. -/
def loadedState : CState := { initState with loaded := true }

/-- C4 counterexample: an invocation of `load` on a state whose module is
already loaded performs no call into the library at all and returns the
cached module instance unchanged, refuting that every invocation performs
the same direct library call rather than caching. -/
theorem loadFn_cached_call_cex :
    (loadFn true loadedState).2.2.countP isFfLoad = 0 ∧
    loadFn true loadedState = (some (), loadedState, []) := ⟨rfl, rfl⟩

/-- C4 amended: calls into the transcoder library are direct and
single-step, with no retry or batching: each invocation of `load` makes
at most one library call, and exactly one when the module is not yet
loaded; but `load` does cache, returning the previously loaded module
instance without any library call once loading has succeeded. -/
theorem loadFn_direct_single_call (libOk : Bool) (s : CState) :
    (loadFn libOk s).2.2.countP isFfLoad ≤ 1 ∧
    (s.loaded = true → loadFn libOk s = (some (), s, [])) ∧
    (s.loaded = false → (loadFn libOk s).2.2.countP isFfLoad = 1) := by
  cases hl : s.loaded <;> cases libOk <;>
    simp [loadFn, hl, isFfLoad, List.countP_cons, List.countP_nil]

/-- Witness for C4's amended theorem: a first load from the initial state
makes exactly one library call. -/
theorem loadFn_direct_single_call_witness :
    (loadFn true initState).2.2.countP isFfLoad = 1 :=
  (loadFn_direct_single_call true initState).2.2 rfl

/-- C5 counterexample: the mount effect alone, run on the initial state in
which no image was ever selected and no generation was ever requested,
already initiates the library load, refuting that loading is not
triggered before a generation-related action requires the module. -/
theorem mount_loads_eagerly_cex :
    (mountEffect true initState).2.countP isFfLoad = 1 ∧
    initState.imageFile = none ∧ initState.videoUrl = none :=
  ⟨rfl, rfl, rfl⟩

/-- C5 amended: the third-party module is fetched and initialised at
runtime, but eagerly: a mount effect initiates the library load as soon as
the component mounts, before any generation-related action; the `load`
call inside `generateVideo` is only a guard that performs no further
library call once the module is loaded. -/
theorem module_loaded_eagerly_on_mount :
    (mountEffect true initState).2.countP isFfLoad = 1 ∧
    (mountEffect true initState).1.loaded = true ∧
    (∀ s t fd o, s.loaded = true →
      (generateVideo o t fd s).2.countP isFfLoad = 0) := by
  refine ⟨rfl, rfl, ?_⟩
  intro s t fd o hl
  cases himg : s.imageFile <;> cases hv : s.videoUrl <;> cases o <;>
    simp_all [generateVideo, resetVideoFn, loadFn, isFfLoad,
      List.countP_cons, List.countP_nil]

/-- Witness for C5's amended theorem: after the module is loaded, a
generation run makes no library load call. -/
theorem module_loaded_eagerly_on_mount_witness :
    (generateVideo .ok 0 (.bytes []) loadedState).2.countP isFfLoad = 0 :=
  module_loaded_eagerly_on_mount.2.2 loadedState 0 (.bytes []) .ok rfl

/-- C8: invoking `generateVideo` with no selected image records the
message "Please choose an image before generating." and returns at once:
the trace holds no transcoder call and no URL revocation, and the video
URL, image preview, duration and fps are all unchanged. -/
theorem generateVideo_without_image (s : CState) (t : ℕ) (fd : FileData)
    (o : GenOutcome) (h : s.imageFile = none) :
    (generateVideo o t fd s).1.status = .error chooseErrMsg ∧
    (generateVideo o t fd s).1.videoUrl = s.videoUrl ∧
    (generateVideo o t fd s).1.imagePreview = s.imagePreview ∧
    (generateVideo o t fd s).1.duration = s.duration ∧
    (generateVideo o t fd s).1.fps = s.fps ∧
    (generateVideo o t fd s).2 = [.setErr chooseErrMsg] := by
  simp [generateVideo, h]

/-- Witness for C8 at the initial state. -/
theorem generateVideo_without_image_witness :
    (generateVideo .ok 0 (.bytes []) initState).2 = [.setErr chooseErrMsg] :=
  (generateVideo_without_image initState 0 (.bytes []) .ok rfl).2.2.2.2.2

/-- C9: selecting a file whose MIME type does not start with "image/"
records the message "Unsupported file. Please select an image." and
changes neither the selected image file nor its preview URL; selecting
`null` clears both without recording any error. -/
theorem handleImageSelection_rejects_non_images :
    (∀ s ty, strStartsWith ty "image/" = false →
      (handleImageSelection (some ty) s).1.status = .error unsupportedErrMsg ∧
      (handleImageSelection (some ty) s).1.imageFile = s.imageFile ∧
      (handleImageSelection (some ty) s).1.imagePreview = s.imagePreview ∧
      (handleImageSelection (some ty) s).2 = [.setErr unsupportedErrMsg]) ∧
    (∀ s, (handleImageSelection none s).1.imageFile = none ∧
      (handleImageSelection none s).1.imagePreview = none ∧
      (handleImageSelection none s).1.status = s.status ∧
      (handleImageSelection none s).2.countP isSetErr = 0) := by
  constructor
  · intro s ty h
    simp [handleImageSelection, h]
  · intro s
    cases hp : s.imagePreview <;>
      simp [handleImageSelection, hp, isSetErr, List.countP_cons, List.countP_nil]

/-- Witness for C9: a plain-text file is rejected with the message. -/
theorem handleImageSelection_rejects_non_images_witness :
    (handleImageSelection (some "text/plain") initState).2 =
      [.setErr unsupportedErrMsg] :=
  (handleImageSelection_rejects_non_images.1 initState "text/plain"
    (by decide)).2.2.2

/-- C7: on success the result is exposed as a downloadable, playable MP4
blob: the bytes read back are kept as a byte array, or UTF-8 encoded when
the read returned a string; the blob's MIME type is "video/mp4"; and the
resulting object URL is both the video element's source and the href of
the download link (named image-video.mp4). -/
theorem result_exposed_as_mp4_blob :
    (∀ b, binaryData (.bytes b) = b) ∧
    (∀ text, binaryData (.str text) = utf8Bytes text) ∧
    (∀ fd, (generatedBlob fd).mime = "video/mp4") ∧
    (∀ s t fd ty, s.imageFile = some ty →
      (generateVideo .ok t fd s).1.videoBlob = some (generatedBlob fd) ∧
      render (generateVideo .ok t fd s).1 =
        { videoSrc := some s.next, downloadHref := some s.next,
          downloadName := some "image-video.mp4", imgSrc := none }) := by
  refine ⟨fun b => rfl, fun text => rfl, fun fd => rfl, ?_⟩
  intro s t fd ty h
  cases hv : s.videoUrl <;> cases hl : s.loaded <;>
    simp_all [generateVideo, resetVideoFn, loadFn, render]

/-- A state with an image selected. -/
def selState : CState := { initState with imageFile := some "image/png" }

/-- Witness for C7: a successful run from a state with a selected image
installs the mp4 blob of the read-back data. -/
theorem result_exposed_as_mp4_blob_witness :
    (generateVideo .ok 0 (.str "abc") selState).1.videoBlob =
      some (generatedBlob (.str "abc")) :=
  (result_exposed_as_mp4_blob.2.2.2 selState 0 (.str "abc") "image/png" rfl).1

/-- C2: a successful run of `generateVideo` marshals exactly one file in
and one file out, in order: it writes the input image, invokes the
transcoder exec once, reads back the single output container file, and
exposes the result as a fresh blob object URL installed as the video
URL. -/
theorem generateVideo_marshal_order (s : CState) (t : ℕ) (fd : FileData)
    (ty : String) (h : s.imageFile = some ty) :
    (generateVideo .ok t fd s).2.filter isMarshal =
      [.writeFile (inputNameOf t),
       .exec (execArgs s.duration s.fps (inputNameOf t) (outputNameOf t)),
       .readFile (outputNameOf t),
       .createURL s.next] ∧
    ((generateVideo .ok t fd s).2.countP isWriteEv = 1 ∧
     (generateVideo .ok t fd s).2.countP isReadEv = 1 ∧
     (generateVideo .ok t fd s).2.countP isExecEv = 1) ∧
    (generateVideo .ok t fd s).1.videoUrl = some s.next := by
  cases hv : s.videoUrl <;> cases hl : s.loaded <;>
    simp_all [generateVideo, resetVideoFn, loadFn, isMarshal, isWriteEv,
      isExecEv, isReadEv, isCreateEv, isFfLoad, List.filter,
      List.countP_cons, List.countP_nil]

/-- Witness for C2: a successful run from a state with a selected image
installs the freshly created object URL. -/
theorem generateVideo_marshal_order_witness :
    (generateVideo .ok 0 (.bytes [1]) selState).1.videoUrl =
      some selState.next :=
  (generateVideo_marshal_order selState 0 (.bytes [1]) "image/png" rfl).2.2

/-- C3: on failure the only recovery is recording a single error message:
the error branch of `load` records exactly one message and on every
failing generation run the catch branch of `generateVideo` appends exactly
one message, after which the run ends in the error status; no transcoder
call is retried (each call kind occurs at most once) and no result URL is
created. -/
theorem failure_sets_single_error_message :
    (∀ s, s.loaded = false →
      (loadFn false s).2.2.filter isSetErr = [.setErr loadErrMsg] ∧
      (loadFn false s).2.1.ffStatus = .error loadErrMsg) ∧
    (∀ s t fd o ty, s.imageFile = some ty → o ≠ GenOutcome.ok →
      (o = GenOutcome.loadFails → s.loaded = false) →
      (generateVideo o t fd s).1.status = .error genErrMsg ∧
      (generateVideo o t fd s).2.filter isSetErr =
        (if o = GenOutcome.loadFails then
          [.setErr loadErrMsg, .setErr genErrMsg]
         else [.setErr genErrMsg]) ∧
      (generateVideo o t fd s).2.countP isFfLoad ≤ 1 ∧
      (generateVideo o t fd s).2.countP isWriteEv ≤ 1 ∧
      (generateVideo o t fd s).2.countP isExecEv ≤ 1 ∧
      (generateVideo o t fd s).2.countP isReadEv ≤ 1 ∧
      (generateVideo o t fd s).2.countP isCreateEv = 0) := by
  constructor
  · intro s hl
    simp [loadFn, hl, isSetErr, List.filter]
  · intro s t fd o ty h ho hlo
    cases hv : s.videoUrl <;> cases hl : s.loaded <;> cases o <;>
      simp_all [generateVideo, resetVideoFn, loadFn, isSetErr, isFfLoad,
        isWriteEv, isExecEv, isReadEv, isCreateEv, List.filter,
        List.countP_cons, List.countP_nil]

/-- Witness for C3: a run whose write step fails ends in the generation
error status. -/
theorem failure_sets_single_error_message_witness :
    (generateVideo .writeFails 0 (.bytes []) selState).1.status =
      .error genErrMsg :=
  (failure_sets_single_error_message.2 selState 0 (.bytes []) .writeFails
    "image/png" rfl (by decide) (by decide)).1

/-- `goodState` only looks at the preview URL, the video URL, the live
set and the freshness counter. -/
lemma goodState_congr (s s2 : CState) (h : goodState s)
    (h1 : s2.imagePreview = s.imagePreview) (h2 : s2.videoUrl = s.videoUrl)
    (h3 : s2.live = s.live) (h4 : s2.next = s.next) : goodState s2 := by
  obtain ⟨hm, hp, hv, hd⟩ := h
  refine ⟨fun u => ?_, fun u hu => ?_, fun u hu => ?_, fun u hu => ?_⟩
  · rw [h1, h2, h3]; exact hm u
  · rw [h4]; exact hp u (h1 ▸ hu)
  · rw [h4]; exact hv u (h2 ▸ hu)
  · rw [h2]; exact hd u (h1 ▸ hu)

lemma goodState_initState : goodState initState := by
  refine ⟨fun u => ?_, fun u hu => ?_, fun u hu => ?_, fun u hu => ?_⟩ <;>
    simp_all [initState]

lemma goodState_resetVideoFn (s : CState) (h : goodState s) :
    goodState (resetVideoFn s).1 := by
  obtain ⟨hm, hp, hv, hd⟩ := h
  cases hvu : s.videoUrl with
  | none =>
    simp only [resetVideoFn, hvu]
    exact ⟨hm, hp, hv, hd⟩
  | some v =>
    simp only [resetVideoFn, hvu]
    refine ⟨fun u => ?_, fun u hu => ?_, fun u hu => ?_, fun u hu => ?_⟩
    · simp only [List.mem_filter, bne_iff_ne, ne_eq, decide_eq_true_eq]
      constructor
      · rintro ⟨hu, hne⟩
        rcases (hm u).1 hu with hpu | hvu2
        · exact Or.inl hpu
        · rw [hvu] at hvu2
          exact absurd (Option.some.inj hvu2) (fun e => hne e.symm)
      · rintro (hpu | hnone)
        · refine ⟨(hm u).2 (Or.inl hpu), fun hequ => ?_⟩
          exact hd u hpu (by rw [hvu, hequ])
        · exact absurd hnone (by simp)
    · exact hp u hu
    · exact absurd hu (by simp)
    · simp

lemma loadFn_fields (b : Bool) (s : CState) :
    (loadFn b s).2.1.imagePreview = s.imagePreview ∧
    (loadFn b s).2.1.videoUrl = s.videoUrl ∧
    (loadFn b s).2.1.live = s.live ∧
    (loadFn b s).2.1.next = s.next ∧
    (loadFn b s).2.1.imageFile = s.imageFile ∧
    (loadFn b s).2.1.duration = s.duration ∧
    (loadFn b s).2.1.fps = s.fps := by
  cases hl : s.loaded <;> cases b <;> simp [loadFn, hl]

lemma goodState_loadFn (b : Bool) (s : CState) (h : goodState s) :
    goodState (loadFn b s).2.1 := by
  obtain ⟨h1, h2, h3, h4, _, _, _⟩ := loadFn_fields b s
  exact goodState_congr s _ h h1 h2 h3 h4

lemma resetVideoFn_fields (s : CState) :
    (resetVideoFn s).1.videoUrl = none ∧
    (resetVideoFn s).1.imagePreview = s.imagePreview ∧
    (resetVideoFn s).1.next = s.next ∧
    (resetVideoFn s).1.imageFile = s.imageFile ∧
    (resetVideoFn s).1.duration = s.duration ∧
    (resetVideoFn s).1.fps = s.fps ∧
    (resetVideoFn s).1.loaded = s.loaded := by
  cases hv : s.videoUrl <;> simp [resetVideoFn, hv]


lemma goodState_removePreview (s : CState) (p : ℕ) (h : goodState s)
    (hpv : s.imagePreview = some p) :
    goodState { s with imageFile := none, imagePreview := none,
                       live := s.live.filter (fun u => u != p) } := by
  obtain ⟨hm, hp, hv, hd⟩ := h
  refine ⟨fun u => ?_, fun u hu => ?_, fun u hu => ?_, fun u hu => ?_⟩
  · show u ∈ s.live.filter (fun u => u != p) ↔ (none = some u ∨ s.videoUrl = some u)
    simp only [List.mem_filter, bne_iff_ne, ne_eq, decide_eq_true_eq]
    constructor
    · rintro ⟨hu, hne⟩
      rcases (hm u).1 hu with hpu | hvu
      · rw [hpv] at hpu
        exact absurd (Option.some.inj hpu) (fun e => hne e.symm)
      · exact Or.inr hvu
    · rintro (hnone | hvu)
      · exact absurd hnone (by simp)
      · refine ⟨(hm u).2 (Or.inr hvu), fun hequ => ?_⟩
        exact hd p hpv (hequ ▸ hvu)
  · exact absurd hu (by simp)
  · exact hv u hu
  · exact absurd hu (by simp)

lemma goodState_installPreview (s : CState) (ty : String) (h : goodState s)
    (hpv : s.imagePreview = none) :
    goodState { s with imageFile := some ty, imagePreview := some s.next,
                       next := s.next + 1, live := s.live ++ [s.next],
                       status := Status.idle } := by
  obtain ⟨hm, hp, hv, hd⟩ := h
  refine ⟨fun u => ?_, fun u hu => ?_, fun u hu => ?_, fun u hu => ?_⟩
  · show u ∈ s.live ++ [s.next] ↔ (some s.next = some u ∨ s.videoUrl = some u)
    simp only [List.mem_append, List.mem_singleton, Option.some.injEq]
    constructor
    · rintro (hu | rfl)
      · rcases (hm u).1 hu with hpu | hvu
        · rw [hpv] at hpu
          exact absurd hpu (by simp)
        · exact Or.inr hvu
      · exact Or.inl rfl
    · rintro (rfl | hvu)
      · exact Or.inr rfl
      · exact Or.inl ((hm u).2 (Or.inr hvu))
  · have hu2 : some s.next = some u := hu
    have := Option.some.inj hu2
    show u < s.next + 1
    omega
  · have hu2 : s.videoUrl = some u := hu
    have := hv u hu2
    show u < s.next + 1
    omega
  · have hu2 : some s.next = some u := hu
    show s.videoUrl ≠ some u
    intro hvu
    have h1 := Option.some.inj hu2
    have h2 := hv u hvu
    omega

lemma goodState_installVideo (s : CState) (blob : BlobV) (h : goodState s)
    (hvu : s.videoUrl = none) :
    goodState { s with videoUrl := some s.next, videoBlob := some blob,
                       next := s.next + 1, live := s.live ++ [s.next],
                       status := Status.idle } := by
  obtain ⟨hm, hp, hv, hd⟩ := h
  refine ⟨fun u => ?_, fun u hu => ?_, fun u hu => ?_, fun u hu => ?_⟩
  · show u ∈ s.live ++ [s.next] ↔ (s.imagePreview = some u ∨ some s.next = some u)
    simp only [List.mem_append, List.mem_singleton, Option.some.injEq]
    constructor
    · rintro (hu | rfl)
      · rcases (hm u).1 hu with hpu | hvu2
        · exact Or.inl hpu
        · rw [hvu] at hvu2
          exact absurd hvu2 (by simp)
      · exact Or.inr rfl
    · rintro (hpu | rfl)
      · exact Or.inl ((hm u).2 (Or.inl hpu))
      · exact Or.inr rfl
  · have hu2 : s.imagePreview = some u := hu
    have := hp u hu2
    show u < s.next + 1
    omega
  · have hu2 : some s.next = some u := hu
    have := Option.some.inj hu2
    show u < s.next + 1
    omega
  · have hu2 : s.imagePreview = some u := hu
    show some s.next ≠ some u
    intro hequ
    have h1 := Option.some.inj hequ
    have h2 := hp u hu2
    omega

lemma goodState_handleImageSelection (f : Option String) (s : CState)
    (h : goodState s) : goodState (handleImageSelection f s).1 := by
  match f with
  | none =>
    cases hpv : s.imagePreview with
    | none =>
      have hg : goodState { s with imageFile := none, imagePreview := none } :=
        goodState_congr s _ h hpv.symm rfl rfl rfl
      simpa [handleImageSelection, hpv] using hg
    | some p =>
      have hg := goodState_removePreview s p h hpv
      simpa [handleImageSelection, hpv] using hg
  | some ty =>
    cases hty : strStartsWith ty "image/" with
    | false =>
      have hg : goodState { s with status := Status.error unsupportedErrMsg } :=
        goodState_congr s _ h rfl rfl rfl rfl
      simpa [handleImageSelection, hty] using hg
    | true =>
      cases hpv : s.imagePreview with
      | none =>
        have hg := goodState_installPreview s ty h hpv
        simpa [handleImageSelection, hty, hpv] using hg
      | some p =>
        have h1 := goodState_removePreview s p h hpv
        have hg := goodState_installPreview _ ty h1 rfl
        simpa [handleImageSelection, hty, hpv] using hg

lemma goodState_generateVideo (o : GenOutcome) (t : ℕ) (fd : FileData)
    (s : CState) (h : goodState s) : goodState (generateVideo o t fd s).1 := by
  obtain ⟨img, prev, vurl, vblob, dur, fp, st, ffst, ld, lv, nx⟩ := s
  cases img with
  | none =>
    exact goodState_congr _ _ h rfl rfl rfl rfl
  | some ty =>
    have h1 : goodState
        ⟨some ty, prev, vurl, vblob, dur, fp, Status.processing, ffst, ld, lv, nx⟩ :=
      goodState_congr _ _ h rfl rfl rfl rfl
    have h2 := goodState_resetVideoFn _ h1
    have hs2v := (resetVideoFn_fields
      (⟨some ty, prev, vurl, vblob, dur, fp, Status.processing, ffst, ld, lv, nx⟩ : CState)).1
    have h3 := goodState_loadFn (decide (o ≠ GenOutcome.loadFails)) _ h2
    have hs3v : (loadFn (decide (o ≠ GenOutcome.loadFails))
        (resetVideoFn ⟨some ty, prev, vurl, vblob, dur, fp, Status.processing,
          ffst, ld, lv, nx⟩).1).2.1.videoUrl = none := by
      rw [(loadFn_fields _ _).2.1]
      exact hs2v
    simp only [generateVideo]
    rcases hload : loadFn (decide (o ≠ GenOutcome.loadFails))
        (resetVideoFn ⟨some ty, prev, vurl, vblob, dur, fp, Status.processing,
          ffst, ld, lv, nx⟩).1 with ⟨r, s3, ev3⟩
    rw [hload] at h3 hs3v
    cases r with
    | none =>
      exact goodState_congr s3 _ h3 rfl rfl rfl rfl
    | some u2 =>
      cases o <;> simp only [reduceIte] <;>
        first
          | exact goodState_installVideo s3 (generatedBlob fd) h3 hs3v
          | exact goodState_congr s3 _ h3 rfl rfl rfl rfl

lemma goodState_step (s : CState) (a : UAction) (h : goodState s) :
    goodState (step s a) := by
  cases a with
  | select ty => exact goodState_handleImageSelection (some ty) s h
  | deselect => exact goodState_handleImageSelection none s h
  | generate o t fd => exact goodState_generateVideo o t fd s h
  | clearVideo =>
    exact goodState_congr (resetVideoFn s).1 _ (goodState_resetVideoFn s h)
      rfl rfl rfl rfl
  | mount libOk => exact goodState_loadFn libOk s h

lemma goodState_run (acts : List UAction) : goodState (run acts) := by
  suffices hgen : ∀ (l : List UAction) (s : CState), goodState s →
      goodState (l.foldl step s) by
    exact hgen acts initState goodState_initState
  intro l
  induction l with
  | nil => exact fun s hs => hs
  | cons a rest ih => exact fun s hs => ih (step s a) (goodState_step s a hs)

/-- C6: object URLs are transient, at most one live per slot: after any
sequence of user actions from the initial state, the set of live object
URLs is exactly the current image-preview URL and the current video URL;
moreover, installing a new preview URL over an old one revokes the old
URL before creating the new one, and clearing the video revokes its URL
first. -/
theorem object_urls_transient :
    (∀ acts : List UAction, ∀ u,
      u ∈ (run acts).live ↔
        ((run acts).imagePreview = some u ∨ (run acts).videoUrl = some u)) ∧
    (∀ s ty p, s.imagePreview = some p → strStartsWith ty "image/" = true →
      (handleImageSelection (some ty) s).2 =
        [.revokeURL p, .createURL s.next]) ∧
    (∀ s v, s.videoUrl = some v → (resetVideoFn s).2 = [.revokeURL v]) ∧
    (∀ s t fd ty v, s.imageFile = some ty → s.videoUrl = some v →
      ∃ mid, (generateVideo .ok t fd s).2 =
        .revokeURL v :: (mid ++ [.createURL s.next])) := by
  refine ⟨?_, ?_, ?_, ?_⟩
  · intro acts u
    exact (goodState_run acts).1 u
  · intro s ty p hp hty
    simp [handleImageSelection, hp, hty]
  · intro s v hv2
    simp [resetVideoFn, hv2]
  · intro s t fd ty v h hv2
    cases hl : s.loaded
    · refine ⟨[.ffLoad, .writeFile (inputNameOf t),
        .exec (execArgs s.duration s.fps (inputNameOf t) (outputNameOf t)),
        .readFile (outputNameOf t), .deleteFile (inputNameOf t),
        .deleteFile (outputNameOf t)], ?_⟩
      simp [generateVideo, resetVideoFn, loadFn, h, hv2, hl]
    · refine ⟨[.writeFile (inputNameOf t),
        .exec (execArgs s.duration s.fps (inputNameOf t) (outputNameOf t)),
        .readFile (outputNameOf t), .deleteFile (inputNameOf t),
        .deleteFile (outputNameOf t)], ?_⟩
      simp [generateVideo, resetVideoFn, loadFn, h, hv2, hl]

/-- Witness for C6: clearing a concrete installed video revokes exactly
its URL. -/
theorem object_urls_transient_witness :
    (resetVideoFn { initState with videoUrl := some 0, live := [0], next := 1 }).2 =
      [.revokeURL 0] :=
  object_urls_transient.2.2.1 { initState with videoUrl := some 0, live := [0], next := 1 } 0 rfl
